import Mathlib

/-!
Verification of the lagrange document session controller against its
natural-language specification.  The relevant C routines are embedded
shallowly: C floats are modelled as rationals, SDL millisecond tick counts
(uint32) as naturals, C strings and byte ranges as lists, and the stateful
routines as explicit state-passing functions.
-/

namespace Lagrange

/-! ## Animation substrate (src/src/ui/util.c)

`iAnim` is `{from, to, when, due, flags}`.  The easing flag constants come
from util.h (not among the sources); following the spec's easing modes,
`easeBoth_AnimFlag = easeIn_AnimFlag | easeOut_AnimFlag`, so the flag word is
modelled as three booleans and the code's test
`(flags & easeBoth_AnimFlag) == easeBoth_AnimFlag` becomes
`easeInFlag ∧ easeOutFlag`. -/

structure AnimFlags where
  easeInFlag : Bool
  easeOutFlag : Bool
  softerFlag : Bool
deriving DecidableEq

structure Anim where
  fromValue : ℚ
  toValue : ℚ
  whenTime : ℕ
  dueTime : ℕ
  flags : AnimFlags
deriving DecidableEq

/-- util.c `easeIn_`: `t * t`. -/
def easeIn_ (t : ℚ) : ℚ := t * t

/-- util.c `easeOut_`: `t * (2.0f - t)`. -/
def easeOut_ (t : ℚ) : ℚ := t * (2 - t)

/-- util.c `easeBoth_`: ease-in rescaled to the first half, ease-out rescaled
to the second half. -/
def easeBoth_ (t : ℚ) : ℚ :=
  if t < 1/2 then easeIn_ (t * 2) * (1/2)
  else 1/2 + easeOut_ ((t - 1/2) * 2) * (1/2)

/-- util.c `pos_Anim_`: `(now - when) / (due - when)`. -/
def pos_Anim_ (d : Anim) (now : ℕ) : ℚ :=
  ((now : ℚ) - (d.whenTime : ℚ)) / ((d.dueTime : ℚ) - (d.whenTime : ℚ))

/-- The easing cascade inside util.c `valueAt_Anim_`: ease-both when both
easing bits are set, else ease-in, else ease-out, else identity; whichever
function applies is applied a second time when the softer bit is set. -/
def applyEase_ (f : AnimFlags) (t : ℚ) : ℚ :=
  if f.easeInFlag = true ∧ f.easeOutFlag = true then
    if f.softerFlag then easeBoth_ (easeBoth_ t) else easeBoth_ t
  else if f.easeInFlag then
    if f.softerFlag then easeIn_ (easeIn_ t) else easeIn_ t
  else if f.easeOutFlag then
    if f.softerFlag then easeOut_ (easeOut_ t) else easeOut_ t
  else t

/-- util.c `valueAt_Anim_`: `to` once due, `from` before the start, otherwise
`from * (1 - t) + to * t` with the eased normalized position `t`. -/
def valueAt_Anim_ (d : Anim) (now : ℕ) : ℚ :=
  if d.dueTime ≤ now then d.toValue
  else if now ≤ d.whenTime then d.fromValue
  else d.fromValue * (1 - applyEase_ d.flags (pos_Anim_ d now))
       + d.toValue * applyEase_ d.flags (pos_Anim_ d now)

/-! Spec-side rendering of the animated-scalar value, written from the
claim's words, to be compared with the embedding above. -/

/-- Modelled from the spec: ease-both is "ease-in on the first half and
ease-out on the second half", with ease-in `n^2` and ease-out `n(2-n)`
rescaled to the two halves. -/
def claimEaseBothFormula (n : ℚ) : ℚ :=
  if n < 1/2 then (n * 2)^2 * (1/2)
  else 1/2 + ((n - 1/2) * 2) * (2 - (n - 1/2) * 2) * (1/2)

/-- Modelled from the spec: the easing function selected by the flags —
identity when no easing flag is set, `n^2` for ease-in, `n(2-n)` for
ease-out, ease-both for both. -/
def claimEaseBase (f : AnimFlags) (n : ℚ) : ℚ :=
  if f.easeInFlag = true ∧ f.easeOutFlag = true then claimEaseBothFormula n
  else if f.easeInFlag then n^2
  else if f.easeOutFlag then n * (2 - n)
  else n

/-- Modelled from the spec: the easing function is applied twice when the
softer flag is set. -/
def claimEase (f : AnimFlags) (n : ℚ) : ℚ :=
  if f.softerFlag then claimEaseBase f (claimEaseBase f n) else claimEaseBase f n

/-- Modelled from the spec: the claimed value of an animated scalar at time
`t`: `to` if `t ≥ due`, `from` if `t ≤ when`, otherwise
`from + (to - from) * ease(n)` with `n = (t - when)/(due - when)`. -/
def claimValueAt (d : Anim) (t : ℕ) : ℚ :=
  if d.dueTime ≤ t then d.toValue
  else if t ≤ d.whenTime then d.fromValue
  else d.fromValue + (d.toValue - d.fromValue) * claimEase d.flags (pos_Anim_ d t)

theorem easeIn_eq_spec (n : ℚ) : easeIn_ n = n^2 := by
  unfold easeIn_; ring

theorem easeOut_eq_spec (n : ℚ) : easeOut_ n = n * (2 - n) := rfl

theorem easeBoth_eq_spec (n : ℚ) : easeBoth_ n = claimEaseBothFormula n := by
  unfold easeBoth_ claimEaseBothFormula easeIn_ easeOut_
  split_ifs with h
  · ring
  · ring

/-- C8: for every animated scalar and query time, the evaluated value equals
the spec's formula: `to` once due, `from` before the start, otherwise
`from + (to - from) * ease(n)` where ease is the identity / `n^2` /
`n(2-n)` / ease-both map selected by the flags, applied twice when the
softer flag is set. -/
theorem valueAt_Anim_matches_spec (d : Anim) (now : ℕ) :
    valueAt_Anim_ d now = claimValueAt d now := by
  unfold valueAt_Anim_ claimValueAt
  split_ifs with h1 h2
  · rfl
  · rfl
  · obtain ⟨f, t, w, u, ⟨bi, bo, bs⟩⟩ := d
    cases bi <;> cases bo <;> cases bs <;>
      simp only [applyEase_, claimEase, claimEaseBase] <;>
      simp only [easeIn_eq_spec, easeOut_eq_spec, easeBoth_eq_spec] <;>
      norm_num <;> ring

/-! ## Animation state changes (src/src/ui/util.c)

`init_Anim`, `setValue_Anim`, `setValueEased_Anim` and `isFinished_Anim`.
`SDL_GetTicks()` and `frameTime_Window(get_Window())` both stand for the
current time and become one `now` parameter.  The float tolerance
`fabsf(to - d->to) > 0.00001f` is modelled as exact inequality. -/

/-- util.c `init_Anim`: `from = to = value`, `when = due = now`, flags 0. -/
def init_Anim (value : ℚ) (now : ℕ) : Anim :=
  { fromValue := value, toValue := value, whenTime := now, dueTime := now,
    flags := ⟨false, false, false⟩ }

/-- util.c `isFinished_Anim`: `from == to || now >= due`. -/
def isFinished_Anim (d : Anim) (now : ℕ) : Prop :=
  d.fromValue = d.toValue ∨ d.dueTime ≤ now

instance (d : Anim) (now : ℕ) : Decidable (isFinished_Anim d now) := by
  unfold isFinished_Anim; infer_instance

/-- util.c `setValue_Anim`: span 0 jumps to the target immediately; an
unchanged target is a no-op; otherwise restart from the current value. -/
def setValue_Anim (d : Anim) (toV : ℚ) (span now : ℕ) : Anim :=
  if span = 0 then
    { d with fromValue := toV, toValue := toV, whenTime := now, dueTime := now }
  else if toV = d.toValue then d
  else
    { fromValue := valueAt_Anim_ d now, toValue := toV, whenTime := now,
      dueTime := now + span, flags := d.flags }

/-- util.c `setValueEased_Anim`: an (almost) unchanged target only updates
`to`; a finished animation restarts from its target with ease-both; an
interrupted one restarts from its current value with ease-out. -/
def setValueEased_Anim (d : Anim) (toV : ℚ) (span now : ℕ) : Anim :=
  if toV = d.toValue then { d with toValue := toV }
  else if isFinished_Anim d now then
    { fromValue := d.toValue, toValue := toV, whenTime := now,
      dueTime := now + span, flags := ⟨true, true, false⟩ }
  else
    { fromValue := valueAt_Anim_ d now, toValue := toV, whenTime := now,
      dueTime := now + span, flags := ⟨false, true, false⟩ }

/-! ## Vertical scrolling (src/unnamed/part_000)

`smoothScroll_DocumentWidget_` drives `d->scrollY`.  `scrollMax_DocumentWidget_`
is the document height minus the widget height plus the page margins; the
document and widget geometry are outside this component, so the scroll state
carries `scrollMax` as a value (resizing replaces it). -/

structure ScrollState where
  scrollY : Anim
  scrollMax : ℚ
deriving DecidableEq

/-- The destination clamping inside `smoothScroll_DocumentWidget_`:
`destY = max(destY, 0)`, then `min(destY, scrollMax)` when `scrollMax > 0`,
else `0`. -/
def clampDestY (destY0 scrollMax : ℚ) : ℚ :=
  let destY := if destY0 < 0 then 0 else destY0
  if 0 < scrollMax then min destY scrollMax else 0

/-- `smoothScroll_DocumentWidget_`: the new destination is the animation's
current target plus the offset, clamped to `[0, scrollMax]`; a zero duration
jumps (`setValue`), a positive one eases (`setValueEased`). -/
def smoothScroll_DocumentWidget_ (s : ScrollState) (offset : ℚ)
    (duration now : ℕ) : ScrollState :=
  { s with scrollY :=
      (if duration = 0 then
        setValue_Anim s.scrollY (clampDestY (s.scrollY.toValue + offset) s.scrollMax) 0 now
      else
        setValueEased_Anim s.scrollY (clampDestY (s.scrollY.toValue + offset) s.scrollMax)
          duration now) }

/-- The scroll operations of the claim.  `top`/`bottom` are the
`scroll.top` / `scroll.bottom` command handlers (`init_Anim` to 0 or to
`scrollMax`, then `scroll_DocumentWidget_(d, 0)` which clamps).  A resize
goes through `updateDocumentWidthRetainingScrollPosition_`, which changes
the geometry (a new `scrollMax`) and then restores the scroll position only
when it finds an anchor run: `resize` is the anchored path (`scrollTo_`
re-initializes the animation at the target document position `y` and clamps
against the new `scrollMax`), while `resizeNoAnchor` is the path where
`runLoc` is NULL or `findRunAtLoc_GmDocument` fails after relayout —
`scrollTo_` is skipped and the scroll animation is left untouched while
`scrollMax` changes. -/
inductive ScrollOp where
  | smooth (offset : ℚ) (duration now : ℕ)
  | top (now : ℕ)
  | bottom (now : ℕ)
  | resize (newMax y : ℚ) (now : ℕ)
  | resizeNoAnchor (newMax : ℚ)

def applyScrollOp (s : ScrollState) : ScrollOp → ScrollState
  | .smooth offset duration now => smoothScroll_DocumentWidget_ s offset duration now
  | .top now => smoothScroll_DocumentWidget_ { s with scrollY := init_Anim 0 now } 0 0 now
  | .bottom now =>
      smoothScroll_DocumentWidget_ { s with scrollY := init_Anim s.scrollMax now } 0 0 now
  | .resize newMax y now =>
      smoothScroll_DocumentWidget_ { scrollY := init_Anim y now, scrollMax := newMax } 0 0 now
  | .resizeNoAnchor newMax => { s with scrollMax := newMax }

/-- The operations whose code path ends in the `smoothScroll` clamp: all of
them except the anchorless resize. -/
def isAnchoredOp : ScrollOp → Bool
  | .resizeNoAnchor _ => false
  | _ => true

/-- A document session starts with `init_Anim(&d->scrollY, 0)`
(init_DocumentWidget); `m0` is the initial `scrollMax`. -/
def runScrollOps (m0 : ℚ) (ops : List ScrollOp) : ScrollState :=
  ops.foldl applyScrollOp { scrollY := init_Anim 0 0, scrollMax := m0 }

/-! Bounds of the easing maps on `[0, 1]`, used to bound the animated value
between the animation's endpoints. -/

theorem easeIn_bounds {t : ℚ} (h0 : 0 ≤ t) (h1 : t ≤ 1) :
    0 ≤ easeIn_ t ∧ easeIn_ t ≤ 1 := by
  unfold easeIn_
  constructor
  · positivity
  · nlinarith

theorem easeOut_bounds {t : ℚ} (h0 : 0 ≤ t) (h1 : t ≤ 1) :
    0 ≤ easeOut_ t ∧ easeOut_ t ≤ 1 := by
  unfold easeOut_
  constructor
  · nlinarith
  · nlinarith [sq_nonneg (t - 1)]

theorem easeBoth_bounds {t : ℚ} (h0 : 0 ≤ t) (h1 : t ≤ 1) :
    0 ≤ easeBoth_ t ∧ easeBoth_ t ≤ 1 := by
  unfold easeBoth_
  split_ifs with h
  · have := easeIn_bounds (t := t * 2) (by linarith) (by linarith)
    constructor <;> nlinarith [this.1, this.2]
  · have := easeOut_bounds (t := (t - 1/2) * 2) (by linarith) (by linarith)
    constructor <;> nlinarith [this.1, this.2]

theorem applyEase_bounds (f : AnimFlags) {t : ℚ} (h0 : 0 ≤ t) (h1 : t ≤ 1) :
    0 ≤ applyEase_ f t ∧ applyEase_ f t ≤ 1 := by
  unfold applyEase_
  split_ifs
  · obtain ⟨a, b⟩ := easeBoth_bounds h0 h1
    exact easeBoth_bounds a b
  · exact easeBoth_bounds h0 h1
  · obtain ⟨a, b⟩ := easeIn_bounds h0 h1
    exact easeIn_bounds a b
  · exact easeIn_bounds h0 h1
  · obtain ⟨a, b⟩ := easeOut_bounds h0 h1
    exact easeOut_bounds a b
  · exact easeOut_bounds h0 h1
  · exact ⟨h0, h1⟩

/-- The animated value always lies between the animation's endpoints. -/
theorem valueAt_between (d : Anim) (now : ℕ) :
    min d.fromValue d.toValue ≤ valueAt_Anim_ d now ∧
      valueAt_Anim_ d now ≤ max d.fromValue d.toValue := by
  unfold valueAt_Anim_
  split_ifs with h1 h2
  · exact ⟨min_le_right _ _, le_max_right _ _⟩
  · exact ⟨min_le_left _ _, le_max_left _ _⟩
  · have hw : (d.whenTime : ℚ) < (now : ℚ) := by exact_mod_cast lt_of_not_le h2
    have hd : ((now : ℚ)) < (d.dueTime : ℚ) := by exact_mod_cast lt_of_not_le h1
    have hden : (0 : ℚ) < (d.dueTime : ℚ) - (d.whenTime : ℚ) := by linarith
    have ht0 : 0 ≤ pos_Anim_ d now := by
      unfold pos_Anim_
      apply div_nonneg (by linarith) (by linarith)
    have ht1 : pos_Anim_ d now ≤ 1 := by
      unfold pos_Anim_
      rw [div_le_one hden]
      linarith
    obtain ⟨he0, he1⟩ := applyEase_bounds d.flags ht0 ht1
    set e := applyEase_ d.flags (pos_Anim_ d now) with he
    rcases le_total d.fromValue d.toValue with hft | hft
    · rw [min_eq_left hft, max_eq_right hft]
      constructor <;> nlinarith
    · rw [min_eq_right hft, max_eq_left hft]
      constructor <;> nlinarith

/-- An animation whose endpoints agree always evaluates to that value. -/
theorem valueAt_const {d : Anim} (h : d.fromValue = d.toValue) (now : ℕ) :
    valueAt_Anim_ d now = d.toValue := by
  have h2 := valueAt_between d now
  rw [h, min_self, max_self] at h2
  exact le_antisymm h2.2 h2.1

/-- The scroll invariant carried through every operation: both animation
endpoints lie in `[0, max scrollMax 0]`, and are pinned to 0 when
`scrollMax` is not positive. -/
def ScrollInv (s : ScrollState) : Prop :=
  0 ≤ s.scrollY.fromValue ∧ 0 ≤ s.scrollY.toValue ∧
  s.scrollY.fromValue ≤ max s.scrollMax 0 ∧ s.scrollY.toValue ≤ max s.scrollMax 0 ∧
  (s.scrollMax ≤ 0 → s.scrollY.fromValue = 0 ∧ s.scrollY.toValue = 0)

theorem clampDestY_bounds (destY0 m : ℚ) :
    0 ≤ clampDestY destY0 m ∧ clampDestY destY0 m ≤ max m 0 ∧
      (m ≤ 0 → clampDestY destY0 m = 0) := by
  unfold clampDestY
  split_ifs with h1 h2 h3
  · refine ⟨le_min le_rfl h2.le, le_trans (min_le_left _ _) ?_, fun hm => absurd h2 hm.not_lt⟩
    exact le_max_right _ _
  · exact ⟨le_rfl, le_max_of_le_right le_rfl, fun _ => rfl⟩
  · refine ⟨le_min (le_of_not_lt h1) h3.le, ?_, fun hm => absurd h3 hm.not_lt⟩
    exact le_trans (min_le_right _ _) (le_max_left _ _)
  · exact ⟨le_rfl, le_max_of_le_right le_rfl, fun _ => rfl⟩

theorem setValueEased_toValue (d : Anim) (v : ℚ) (span now : ℕ) :
    (setValueEased_Anim d v span now).toValue = v := by
  unfold setValueEased_Anim
  split_ifs <;> rfl

theorem setValueEased_fromValue (d : Anim) (v : ℚ) (span now : ℕ) :
    (setValueEased_Anim d v span now).fromValue = d.fromValue ∨
    (setValueEased_Anim d v span now).fromValue = d.toValue ∨
    (setValueEased_Anim d v span now).fromValue = valueAt_Anim_ d now := by
  unfold setValueEased_Anim
  split_ifs
  · exact Or.inl rfl
  · exact Or.inr (Or.inl rfl)
  · exact Or.inr (Or.inr rfl)

theorem smoothScroll_scrollMax (s : ScrollState) (offset : ℚ) (duration now : ℕ) :
    (smoothScroll_DocumentWidget_ s offset duration now).scrollMax = s.scrollMax := rfl

theorem smoothScroll_toValue (s : ScrollState) (offset : ℚ) (duration now : ℕ) :
    (smoothScroll_DocumentWidget_ s offset duration now).scrollY.toValue
      = clampDestY (s.scrollY.toValue + offset) s.scrollMax := by
  unfold smoothScroll_DocumentWidget_
  split_ifs with hdur
  · rfl
  · exact setValueEased_toValue s.scrollY _ duration now

theorem smoothScroll_fromValue (s : ScrollState) (offset : ℚ) (duration now : ℕ) :
    (smoothScroll_DocumentWidget_ s offset duration now).scrollY.fromValue
        = clampDestY (s.scrollY.toValue + offset) s.scrollMax ∨
    (smoothScroll_DocumentWidget_ s offset duration now).scrollY.fromValue
        = s.scrollY.fromValue ∨
    (smoothScroll_DocumentWidget_ s offset duration now).scrollY.fromValue
        = s.scrollY.toValue ∨
    (smoothScroll_DocumentWidget_ s offset duration now).scrollY.fromValue
        = valueAt_Anim_ s.scrollY now := by
  unfold smoothScroll_DocumentWidget_
  split_ifs with hdur
  · exact Or.inl rfl
  · rcases setValueEased_fromValue s.scrollY
      (clampDestY (s.scrollY.toValue + offset) s.scrollMax) duration now with h | h | h
    · exact Or.inr (Or.inl h)
    · exact Or.inr (Or.inr (Or.inl h))
    · exact Or.inr (Or.inr (Or.inr h))

theorem smoothScroll_inv (s : ScrollState) (offset : ℚ) (duration now : ℕ)
    (h : ScrollInv s) :
    ScrollInv (smoothScroll_DocumentWidget_ s offset duration now) := by
  obtain ⟨hf0, ht0, hfM, htM, hzero⟩ := h
  obtain ⟨c0, cM, cz⟩ := clampDestY_bounds (s.scrollY.toValue + offset) s.scrollMax
  have hmax := smoothScroll_scrollMax s offset duration now
  have hto := smoothScroll_toValue s offset duration now
  have hfrom := smoothScroll_fromValue s offset duration now
  unfold ScrollInv
  rw [hmax, hto]
  refine ⟨?_, c0, ?_, cM, fun hm => ⟨?_, cz hm⟩⟩
  · rcases hfrom with h | h | h | h <;> rw [h]
    · exact c0
    · exact hf0
    · exact ht0
    · exact le_trans (le_min hf0 ht0) (valueAt_between s.scrollY now).1
  · rcases hfrom with h | h | h | h <;> rw [h]
    · exact cM
    · exact hfM
    · exact htM
    · exact le_trans (valueAt_between s.scrollY now).2 (max_le hfM htM)
  · rcases hfrom with h | h | h | h <;> rw [h]
    · exact cz hm
    · exact (hzero hm).1
    · exact (hzero hm).2
    · rw [valueAt_const ((hzero hm).1.trans (hzero hm).2.symm) now]
      exact (hzero hm).2

theorem applyScrollOp_inv (s : ScrollState) (op : ScrollOp)
    (hop : isAnchoredOp op = true) (h : ScrollInv s) :
    ScrollInv (applyScrollOp s op) := by
  cases op with
  | smooth offset duration now => exact smoothScroll_inv s offset duration now h
  | top now =>
      show ScrollInv
        (smoothScroll_DocumentWidget_ { s with scrollY := init_Anim 0 now } 0 0 now)
      obtain ⟨c0, cM, cz⟩ :=
        clampDestY_bounds ((init_Anim 0 now).toValue + 0) s.scrollMax
      exact ⟨c0, c0, cM, cM, fun hm => ⟨cz hm, cz hm⟩⟩
  | bottom now =>
      show ScrollInv
        (smoothScroll_DocumentWidget_ { s with scrollY := init_Anim s.scrollMax now } 0 0 now)
      obtain ⟨c0, cM, cz⟩ :=
        clampDestY_bounds ((init_Anim s.scrollMax now).toValue + 0) s.scrollMax
      exact ⟨c0, c0, cM, cM, fun hm => ⟨cz hm, cz hm⟩⟩
  | resize newMax y now =>
      show ScrollInv
        (smoothScroll_DocumentWidget_ { scrollY := init_Anim y now, scrollMax := newMax } 0 0 now)
      obtain ⟨c0, cM, cz⟩ := clampDestY_bounds ((init_Anim y now).toValue + 0) newMax
      exact ⟨c0, c0, cM, cM, fun hm => ⟨cz hm, cz hm⟩⟩
  | resizeNoAnchor newMax => simp [isAnchoredOp] at hop

theorem foldl_scroll_inv (ops : List ScrollOp) (s : ScrollState) (h : ScrollInv s)
    (hall : ∀ op ∈ ops, isAnchoredOp op = true) :
    ScrollInv (ops.foldl applyScrollOp s) := by
  induction ops generalizing s with
  | nil => exact h
  | cons op rest ih =>
      exact ih _ (applyScrollOp_inv s op (hall op (List.mem_cons_self _ _)) h)
        (fun o ho => hall o (List.mem_cons_of_mem _ ho))

/-- C6 counterexample: the claim fails on the code as stated.  Starting from
`scrollMax = 100`, jump to the bottom (scroll value 100), then resize
without an anchor run (`firstVisibleRun` NULL — e.g. the viewport lies
inside an image taller than the window — so
`updateDocumentWidthRetainingScrollPosition_` never calls `scrollTo_`) with
the new `scrollMax = 50`: the animated scroll value stays 100, above the new
`scrollMax`. -/
theorem scrollY_exceeds_scrollMax_after_unanchored_resize :
    (runScrollOps 100 [ScrollOp.bottom 0, ScrollOp.resizeNoAnchor 50]).scrollMax = 50 ∧
    valueAt_Anim_
      (runScrollOps 100 [ScrollOp.bottom 0, ScrollOp.resizeNoAnchor 50]).scrollY 0 = 100 ∧
    ¬ (valueAt_Anim_
        (runScrollOps 100 [ScrollOp.bottom 0, ScrollOp.resizeNoAnchor 50]).scrollY 0 ≤
      (runScrollOps 100 [ScrollOp.bottom 0, ScrollOp.resizeNoAnchor 50]).scrollMax) := by
  have h1 : runScrollOps 100 [ScrollOp.bottom 0, ScrollOp.resizeNoAnchor 50] =
      { scrollY := { fromValue := 100, toValue := 100, whenTime := 0, dueTime := 0,
                     flags := ⟨false, false, false⟩ }, scrollMax := 50 } := by
    unfold runScrollOps
    simp only [List.foldl_cons, List.foldl_nil, applyScrollOp,
      smoothScroll_DocumentWidget_, init_Anim, setValue_Anim, clampDestY]
    norm_num
  have h2 : valueAt_Anim_ { fromValue := 100, toValue := 100, whenTime := 0, dueTime := 0,
                            flags := ⟨false, false, false⟩ } 0 = 100 := by
    unfold valueAt_Anim_
    norm_num
  rw [h1]
  refine ⟨rfl, h2, ?_⟩
  rw [h2]
  norm_num

/-- C6 (amended): after any combination of smooth-scroll (arbitrary
offsets), jump-to-top, jump-to-bottom and resize operations whose resizes
re-anchor the scroll position (find an anchor run), the animated vertical
scroll value lies within `[0, scrollMax]` at every query time, and is 0
when `scrollMax` is not positive; a resize that finds no anchor run changes
`scrollMax` without touching the scroll value, which can then exceed the
new `scrollMax` until the next clamping operation. -/
theorem scrollY_clamped_with_anchored_resizes (m0 : ℚ) (ops : List ScrollOp) (t : ℕ)
    (hall : ∀ op ∈ ops, isAnchoredOp op = true) :
    0 ≤ valueAt_Anim_ (runScrollOps m0 ops).scrollY t ∧
    (0 < (runScrollOps m0 ops).scrollMax →
      valueAt_Anim_ (runScrollOps m0 ops).scrollY t ≤ (runScrollOps m0 ops).scrollMax) ∧
    ((runScrollOps m0 ops).scrollMax ≤ 0 →
      valueAt_Anim_ (runScrollOps m0 ops).scrollY t = 0) := by
  have hinv : ScrollInv (runScrollOps m0 ops) := by
    refine foldl_scroll_inv ops _ ?_ hall
    unfold ScrollInv init_Anim
    exact ⟨le_rfl, le_rfl, le_max_of_le_right le_rfl, le_max_of_le_right le_rfl,
           fun _ => ⟨rfl, rfl⟩⟩
  obtain ⟨hf0, ht0, hfM, htM, hzero⟩ := hinv
  have hb := valueAt_between (runScrollOps m0 ops).scrollY t
  refine ⟨le_trans (le_min hf0 ht0) hb.1, fun hpos => ?_, fun hm => ?_⟩
  · have : max (runScrollOps m0 ops).scrollMax 0 = (runScrollOps m0 ops).scrollMax :=
      max_eq_left hpos.le
    exact le_trans hb.2 (le_trans (max_le hfM htM) this.le)
  · obtain ⟨hz1, hz2⟩ := hzero hm
    exact (valueAt_const (hz1.trans hz2.symm) t).trans hz2

/-- Witness for the amended C6 at a concrete input: jump to the bottom of a
100-tall scroll range, then smooth-scroll by 30. -/
theorem scrollY_clamped_with_anchored_resizes_witness :
    0 ≤ valueAt_Anim_
        (runScrollOps 100 [ScrollOp.bottom 0, ScrollOp.smooth 30 0 1]).scrollY 2 ∧
    (0 < (runScrollOps 100 [ScrollOp.bottom 0, ScrollOp.smooth 30 0 1]).scrollMax →
      valueAt_Anim_
          (runScrollOps 100 [ScrollOp.bottom 0, ScrollOp.smooth 30 0 1]).scrollY 2 ≤
        (runScrollOps 100 [ScrollOp.bottom 0, ScrollOp.smooth 30 0 1]).scrollMax) ∧
    ((runScrollOps 100 [ScrollOp.bottom 0, ScrollOp.smooth 30 0 1]).scrollMax ≤ 0 →
      valueAt_Anim_
        (runScrollOps 100 [ScrollOp.bottom 0, ScrollOp.smooth 30 0 1]).scrollY 2 = 0) :=
  scrollY_clamped_with_anchored_resizes 100 [ScrollOp.bottom 0, ScrollOp.smooth 30 0 1] 2
    (by decide)

/-! ## Wide-block horizontal scrolling (src/unnamed/part_000)

`scrollWideBlock_DocumentWidget_` updates the stored horizontal offset of the
preformatted block under the pointer:
`*offset = iClamp(*offset + delta, 0, maxOffset)` with
`maxOffset = maxWidth - documentWidth + pageMargin * gap_UI`, after an early
return when `delta == 0`.  C ints are modelled as integers. -/

/-- Modelled from the spec: the_Foundation's `iClamp(i, low, high)` (the
library is not among the sources): clamp `i` into `[low, high]`. -/
def iClamp (i low high : ℤ) : ℤ :=
  if i < low then low else if high < i then high else i

/-- The `maxOffset` computed in `scrollWideBlock_DocumentWidget_`: the block's
maximum content width minus the document viewport width plus the page
margin. -/
def maxOffsetWideBlock (maxWidth docWidth margin : ℤ) : ℤ :=
  maxWidth - docWidth + margin

/-- The offset update of `scrollWideBlock_DocumentWidget_`: no store happens
when `delta == 0` (early return), otherwise the stored offset becomes
`iClamp(offset + delta, 0, maxOffset)`. -/
def scrollWideBlockOffset (offset delta maxOffset : ℤ) : ℤ :=
  if delta = 0 then offset else iClamp (offset + delta) 0 maxOffset

/-- C5: for every wide block (content at least as wide as the viewport, so
`maxOffset ≥ 0`) and every requested delta, however large or negative, the
stored offset after a scroll-wide-block operation stays within
`[0, maxOffset]` where `maxOffset = maxWidth - docWidth + margin`. -/
theorem scrollWideBlock_offset_clamped (offset delta maxWidth docWidth margin : ℤ)
    (hwide : 0 ≤ maxOffsetWideBlock maxWidth docWidth margin)
    (h0 : 0 ≤ offset) (h1 : offset ≤ maxOffsetWideBlock maxWidth docWidth margin) :
    0 ≤ scrollWideBlockOffset offset delta (maxOffsetWideBlock maxWidth docWidth margin) ∧
      scrollWideBlockOffset offset delta (maxOffsetWideBlock maxWidth docWidth margin) ≤
        maxOffsetWideBlock maxWidth docWidth margin := by
  unfold scrollWideBlockOffset iClamp maxOffsetWideBlock at *
  split_ifs <;> omega

/-- Witness for C5 at a concrete input: a block of width 900 in a 640-wide
viewport with margin 25, starting offset 100, scrolled by a huge delta. -/
theorem scrollWideBlock_offset_clamped_witness :
    0 ≤ scrollWideBlockOffset 100 123456789 (maxOffsetWideBlock 900 640 25) ∧
      scrollWideBlockOffset 100 123456789 (maxOffsetWideBlock 900 640 25) ≤
        maxOffsetWideBlock 900 640 25 :=
  scrollWideBlock_offset_clamped 100 123456789 900 640 25 (by decide) (by decide) (by decide)

/-! ## Persistent session state (src/unnamed/part_000)

`serialize_PersistentDocumentState` writes the URL, a 16-bit field whose low
3 bits hold the reload interval, and the serialized history;
`deserialize_PersistentDocumentState` reads them back and clears a URL
containing the corruption marker " ptr:0x".  The stream is modelled as a
list of naturals; the_Foundation's stream primitives are not among the
sources, so per the spec's byte layout `serialize_String` is length-prefixed
(one length entry, then the string's bytes) and the history blob is opaque
trailing data. -/

/-- Modelled from the spec: length-prefixed string serialization
(the_Foundation `serialize_String`). -/
def serialize_String (outs : List ℕ) (s : List ℕ) : List ℕ :=
  outs ++ s.length :: s

/-- Modelled from the spec: the low 16 bits of `v` appended as one stream
entry (the_Foundation `writeU16_Stream`). -/
def writeU16_Stream (outs : List ℕ) (v : ℕ) : List ℕ :=
  outs ++ [v % 65536]

/-- Modelled from the spec: the opaque serialized navigation-history blob
(history.c `serialize_History`) is trailing data. -/
def serialize_History (outs : List ℕ) (h : List ℕ) : List ℕ :=
  outs ++ h

/-- Modelled from the spec: read back a length-prefixed string, returning it
and the rest of the stream. -/
def deserialize_String : List ℕ → List ℕ × List ℕ
  | [] => ([], [])
  | n :: rest => (rest.take n, rest.drop n)

/-- Modelled from the spec: read one 16-bit stream entry. -/
def readU16_Stream : List ℕ → ℕ × List ℕ
  | [] => (0, [])
  | v :: rest => (v, rest)

/-- The corruption marker " ptr:0x" as bytes. -/
def ptrMarker : List ℕ := [32, 112, 116, 114, 58, 48, 120]

structure PersistentDocumentState where
  url : List ℕ
  reloadInterval : ℕ
  history : List ℕ
deriving DecidableEq

/-- part_000 `serialize_PersistentDocumentState`: URL, then
`writeU16(reloadInterval & 7)`, then the history. -/
def serialize_PersistentDocumentState (d : PersistentDocumentState) : List ℕ :=
  serialize_History (writeU16_Stream (serialize_String [] d.url) (d.reloadInterval % 8))
    d.history

/-- part_000 `deserialize_PersistentDocumentState`: read the URL (cleared if
it contains " ptr:0x"), then the 16-bit field (`reloadInterval = params & 7`),
then the history. -/
def deserialize_PersistentDocumentState (ins : List ℕ) : PersistentDocumentState :=
  let p1 := deserialize_String ins
  let url := if ptrMarker <:+: p1.1 then [] else p1.1
  let p2 := readU16_Stream p1.2
  { url := url, reloadInterval := p2.1 % 8, history := p2.2 }

/-- C3: serializing the persistent document state and deserializing it yields
an equal URL and an equal reload interval for every interval value 0-7
(and the history blob), except that a URL containing " ptr:0x" deserializes
to the empty string. -/
theorem persistentDocumentState_roundTrip (d : PersistentDocumentState)
    (h : d.reloadInterval < 8) :
    deserialize_PersistentDocumentState (serialize_PersistentDocumentState d) =
      { url := if ptrMarker <:+: d.url then [] else d.url,
        reloadInterval := d.reloadInterval, history := d.history } := by
  unfold serialize_PersistentDocumentState deserialize_PersistentDocumentState
    serialize_History writeU16_Stream serialize_String
  have hm : d.reloadInterval % 8 % 65536 = d.reloadInterval := by omega
  simp only [List.nil_append, List.cons_append, List.append_assoc]
  unfold deserialize_String
  simp only [List.take_left, List.drop_left]
  unfold readU16_Stream
  simp only [hm]
  congr 1
  omega

/-- Witness for C3 at a concrete input: a URL that contains the corruption
marker " ptr:0x" round-trips to the empty URL, keeping interval 5. -/
theorem persistentDocumentState_roundTrip_witness :
    deserialize_PersistentDocumentState
        (serialize_PersistentDocumentState ⟨[103, 32, 112, 116, 114, 58, 48, 120], 5, [9, 9]⟩) =
      { url := if ptrMarker <:+: [103, 32, 112, 116, 114, 58, 48, 120] then [] else
          [103, 32, 112, 116, 114, 58, 48, 120],
        reloadInterval := 5, history := [9, 9] } :=
  persistentDocumentState_roundTrip ⟨[103, 32, 112, 116, 114, 58, 48, 120], 5, [9, 9]⟩
    (by decide)

/-! ## Auto-reload interval (src/unnamed/part_000)

`seconds_ReloadInterval_` and the `document.autoreload` command handler:
`if (d->mod.reloadInterval) if (!isValid_Time(&d->sourceTime) ||
elapsedSeconds_Time(&d->sourceTime) >= seconds_ReloadInterval_(...)) reload`.
The elapsed seconds (a C double) are modelled as a rational. -/

/-- part_000 `seconds_ReloadInterval_`: despite the name, the table holds
`{ 0, 1, 5, 15, 60, 4*60, 12*60, 24*60 }` — minute counts, not seconds. -/
def seconds_ReloadInterval_ (d : ℕ) : ℕ :=
  if 8 ≤ d then 0
  else [0, 1, 5, 15, 60, 4 * 60, 12 * 60, 24 * 60].getD d 0

/-- The `document.autoreload` check: with a non-never interval, reload
exactly when the source time is invalid or the elapsed seconds reach
`seconds_ReloadInterval_`. -/
def autoReloadTriggers (reloadInterval : ℕ) (sourceTimeValid : Bool)
    (elapsedSeconds : ℚ) : Bool :=
  decide (reloadInterval ≠ 0 ∧
    (sourceTimeValid = false ∨ (seconds_ReloadInterval_ reloadInterval : ℚ) ≤ elapsedSeconds))

/-- C4 (code bug evidence): with the interval set to "1 minute"
(`minute_ReloadInterval = 1`) and a valid source time, the code already
triggers a reload after one elapsed second, because `seconds_ReloadInterval_`
returns the minute count 1 where 60 seconds are intended; likewise "1 hour"
(4) triggers after 60 seconds instead of 3600. -/
theorem autoReload_fires_after_seconds_not_minutes :
    seconds_ReloadInterval_ 1 = 1 ∧
    autoReloadTriggers 1 true 1 = true ∧
    seconds_ReloadInterval_ 4 = 60 ∧
    autoReloadTriggers 4 true 60 = true ∧
    autoReloadTriggers 1 true (59 : ℚ) = true := by
  decide

/-! ## Redirect handling (src/unnamed/part_000, `checkResponse_DocumentWidget_`)

The `categoryRedirect_GmStatusCode` arm on the first streamed status line:
an empty `resp->meta` shows the invalid-redirect error page; otherwise, when
`d->redirectCount >= 5` the too-many-redirects error page is shown; otherwise
a destination whose scheme equals the current URL's scheme (case-insensitive)
is re-fetched via `open ... redirect:(count+1)`, and any other scheme shows
the scheme-change error page.  Strings and the two URL schemes (extracted by
`urlScheme_String`, outside this file) are byte lists. -/

inductive GmStatusCode where
  | invalidRedirect
  | tooManyRedirects
  | schemeChangeRedirect
deriving DecidableEq

inductive RedirectAction where
  | errorPage (code : GmStatusCode)
  | refetch (newRedirectCount : ℕ)
deriving DecidableEq

/-- the_Foundation `equalCase_Rangecc` on byte strings: case-insensitive
equality (ASCII letters folded to lower case). -/
def lowerByte (b : ℕ) : ℕ := if 65 ≤ b ∧ b ≤ 90 then b + 32 else b

def equalCase (a b : List ℕ) : Bool := a.map lowerByte == b.map lowerByte

/-- The redirect arm of `checkResponse_DocumentWidget_`: `meta` is the
response meta line (the redirect target), `curScheme` the current URL's
scheme and `dstScheme` the scheme of the resolved destination URL. -/
def checkResponseRedirect (meta curScheme dstScheme : List ℕ)
    (redirectCount : ℕ) : RedirectAction :=
  if meta = [] then .errorPage .invalidRedirect
  else if 5 ≤ redirectCount then .errorPage .tooManyRedirects
  else if equalCase dstScheme curScheme then .refetch (redirectCount + 1)
  else .errorPage .schemeChangeRedirect

/-- C1 counterexample: a non-empty redirect to a *different* scheme
("gopher" vs current "gemini") at redirect counter 5 produces the
too-many-redirects error page, not the scheme-change error page the claim
promises for every different-scheme target — the counter limit is checked
before the scheme comparison. -/
theorem checkResponseRedirect_crossScheme_at_limit :
    checkResponseRedirect [103, 111] [103, 101, 109, 105, 110, 105]
        [103, 111, 112, 104, 101, 114] 5 =
      RedirectAction.errorPage .tooManyRedirects ∧
    equalCase [103, 111, 112, 104, 101, 114] [103, 101, 109, 105, 110, 105] = false ∧
    RedirectAction.errorPage .tooManyRedirects ≠
      RedirectAction.errorPage .schemeChangeRedirect := by
  decide

/-- C1 (amended): on the first streamed status line of a redirect response,
an empty target yields the invalid-redirect error document; while the
redirect counter is below 5, a same-scheme target is automatically
re-fetched with the counter incremented and a different-scheme target is
never auto-followed (scheme-change error document requiring confirmation);
once the counter has reached 5 every non-empty target — same scheme or not —
yields the too-many-redirects error document, so a chain of same-scheme
redirects is auto-followed at most 5 consecutive times. -/
theorem checkResponseRedirect_cases (meta curScheme dstScheme : List ℕ)
    (count : ℕ) :
    (meta = [] →
      checkResponseRedirect meta curScheme dstScheme count =
        .errorPage .invalidRedirect) ∧
    (meta ≠ [] → count < 5 → equalCase dstScheme curScheme = true →
      checkResponseRedirect meta curScheme dstScheme count = .refetch (count + 1)) ∧
    (meta ≠ [] → count < 5 → equalCase dstScheme curScheme = false →
      checkResponseRedirect meta curScheme dstScheme count =
        .errorPage .schemeChangeRedirect) ∧
    (meta ≠ [] → 5 ≤ count →
      checkResponseRedirect meta curScheme dstScheme count =
        .errorPage .tooManyRedirects) := by
  refine ⟨fun h => ?_, fun h1 h2 h3 => ?_, fun h1 h2 h3 => ?_, fun h1 h2 => ?_⟩
  · simp [checkResponseRedirect, h]
  · simp [checkResponseRedirect, h1, Nat.not_le.mpr h2, h3]
  · simp [checkResponseRedirect, h1, Nat.not_le.mpr h2, h3]
  · simp [checkResponseRedirect, h1, h2]

/-! ## Media sub-requests (src/unnamed/part_000)

`d->media` is an object list of `MediaRequest`s; only the link identifiers
matter here.  `requestMedia_DocumentWidget_` registers a new request only
when `findMediaRequest_DocumentWidget_` finds none;
`removeMediaRequest_DocumentWidget_` (used on cancellation and on
completion-with-failure) removes the first request with the given link id. -/

/-- `findMediaRequest_DocumentWidget_`: the first request whose `linkId`
matches. -/
def findMediaRequest_DocumentWidget_ (media : List ℕ) (linkId : ℕ) : Option ℕ :=
  media.find? (fun req => req == linkId)

/-- `requestMedia_DocumentWidget_`: no-op returning false when a request for
`linkId` exists, else register one and return true. -/
def requestMedia_DocumentWidget_ (media : List ℕ) (linkId : ℕ) : List ℕ × Bool :=
  if findMediaRequest_DocumentWidget_ media linkId = none then (media ++ [linkId], true)
  else (media, false)

/-- `removeMediaRequest_DocumentWidget_`: remove the first matching request
(the loop breaks after one removal). -/
def removeMediaRequest_DocumentWidget_ (media : List ℕ) (linkId : ℕ) : List ℕ :=
  match media with
  | [] => []
  | req :: rest =>
      if req = linkId then rest
      else req :: removeMediaRequest_DocumentWidget_ rest linkId

/-- The media-request operations of the claim: request and
remove (cancellation / finish-with-failure both deregister). -/
inductive MediaOp where
  | request (linkId : ℕ)
  | remove (linkId : ℕ)

def applyMediaOp (media : List ℕ) : MediaOp → List ℕ
  | .request linkId => (requestMedia_DocumentWidget_ media linkId).1
  | .remove linkId => removeMediaRequest_DocumentWidget_ media linkId

/-- `init_DocumentWidget` starts with an empty media list. -/
def runMediaOps (ops : List MediaOp) : List ℕ :=
  ops.foldl applyMediaOp []

theorem count_removeMediaRequest_le (media : List ℕ) (linkId y : ℕ) :
    (removeMediaRequest_DocumentWidget_ media linkId).count y ≤ media.count y := by
  induction media with
  | nil => simp [removeMediaRequest_DocumentWidget_]
  | cons req rest ih =>
      unfold removeMediaRequest_DocumentWidget_
      split_ifs with h
      · simp only [List.count_cons]
        exact Nat.le_add_right _ _
      · simp only [List.count_cons]
        exact Nat.add_le_add_right ih _

theorem applyMediaOp_request_new (media : List ℕ) (linkId : ℕ)
    (h : findMediaRequest_DocumentWidget_ media linkId = none) :
    applyMediaOp media (.request linkId) = media ++ [linkId] := by
  show (requestMedia_DocumentWidget_ media linkId).1 = media ++ [linkId]
  unfold requestMedia_DocumentWidget_
  rw [if_pos h]

theorem applyMediaOp_request_existing (media : List ℕ) (linkId : ℕ)
    (h : ¬ findMediaRequest_DocumentWidget_ media linkId = none) :
    applyMediaOp media (.request linkId) = media := by
  show (requestMedia_DocumentWidget_ media linkId).1 = media
  unfold requestMedia_DocumentWidget_
  rw [if_neg h]

theorem count_applyMediaOp_le_one (media : List ℕ) (op : MediaOp)
    (h : ∀ y, media.count y ≤ 1) (y : ℕ) : (applyMediaOp media op).count y ≤ 1 := by
  cases op with
  | request linkId =>
      by_cases hfind : findMediaRequest_DocumentWidget_ media linkId = none
      · rw [applyMediaOp_request_new media linkId hfind]
        by_cases hy : y = linkId
        · subst hy
          have hnot : y ∉ media := by
            intro hmem
            have := List.find?_eq_none.mp hfind y hmem
            simp at this
          simp [List.count_append, List.count_eq_zero.mpr hnot]
        · have := h y
          simp only [List.count_append, List.count_singleton']
          rw [if_neg (fun hh => hy hh.symm)]
          omega
      · rw [applyMediaOp_request_existing media linkId hfind]
        exact h y
  | remove linkId =>
      exact le_trans (count_removeMediaRequest_le media linkId y) (h y)

theorem foldl_mediaOps_count (ops : List MediaOp) (media : List ℕ)
    (h : ∀ y, media.count y ≤ 1) (y : ℕ) :
    (ops.foldl applyMediaOp media).count y ≤ 1 := by
  induction ops generalizing media with
  | nil => exact h y
  | cons op rest ih =>
      simp only [List.foldl_cons]
      exact ih (applyMediaOp media op) (count_applyMediaOp_le_one media op h)

/-- C7: across any sequence of request / cancel / finish operations, at most
one MediaRequest exists per link identifier at any instant; requesting a
link that already has one is a no-op returning false, and requesting a link
without one registers exactly one new request and returns true. -/
theorem mediaRequest_at_most_one (ops : List MediaOp) (linkId : ℕ)
    (media : List ℕ) (i : ℕ) :
    (runMediaOps ops).count linkId ≤ 1 ∧
    (findMediaRequest_DocumentWidget_ media i ≠ none →
      requestMedia_DocumentWidget_ media i = (media, false)) ∧
    (findMediaRequest_DocumentWidget_ media i = none →
      requestMedia_DocumentWidget_ media i = (media ++ [i], true)) := by
  refine ⟨?_, fun h => ?_, fun h => ?_⟩
  · exact foldl_mediaOps_count ops [] (by simp) linkId
  · unfold requestMedia_DocumentWidget_
    rw [if_neg h]
  · unfold requestMedia_DocumentWidget_
    rw [if_pos h]

/-! ## Invalidation set (src/unnamed/part_000)

`d->invalidRuns` is an `iPtrSet` — a set of run pointers with no duplicates;
run pointers are modelled as naturals and the set as the list of its
elements, with `insert_PtrSet` inserting only a pointer not yet present.
`invalidateLink_DocumentWidget_` inserts every visible run carrying the
link. -/

/-- the_Foundation `insert_PtrSet`: a set insert — a present element leaves
the set unchanged. -/
def insert_PtrSet (s : List ℕ) (x : ℕ) : List ℕ :=
  if x ∈ s then s else s ++ [x]

/-- A visible run as far as link invalidation is concerned: its pointer
identity and its link id. -/
structure GmRunRef where
  ptr : ℕ
  linkId : ℕ
deriving DecidableEq

/-- `invalidateLink_DocumentWidget_`: insert every run of `visibleLinks`
whose `linkId` matches into the invalidation set. -/
def invalidateLink_DocumentWidget_ (visibleLinks : List GmRunRef)
    (invalidRuns : List ℕ) (linkId : ℕ) : List ℕ :=
  visibleLinks.foldl
    (fun acc run => if run.linkId = linkId then insert_PtrSet acc run.ptr else acc)
    invalidRuns

theorem insert_PtrSet_idem (s : List ℕ) (x : ℕ) :
    insert_PtrSet (insert_PtrSet s x) x = insert_PtrSet s x := by
  unfold insert_PtrSet
  split_ifs with h1 h2
  · rfl
  · rfl
  · exact absurd (List.mem_append_right s (by simp)) h2

theorem mem_insert_PtrSet_of_mem {s : List ℕ} {a : ℕ} (x : ℕ) (h : a ∈ s) :
    a ∈ insert_PtrSet s x := by
  unfold insert_PtrSet
  split_ifs with h1
  · exact h
  · exact List.mem_append_left _ h

theorem mem_insert_PtrSet_self (s : List ℕ) (x : ℕ) : x ∈ insert_PtrSet s x := by
  unfold insert_PtrSet
  split_ifs with h1
  · exact h1
  · simp

theorem mem_invalidateLink_of_mem (links : List GmRunRef) (acc : List ℕ)
    (linkId : ℕ) {a : ℕ} (h : a ∈ acc) :
    a ∈ invalidateLink_DocumentWidget_ links acc linkId := by
  induction links generalizing acc with
  | nil => exact h
  | cons run rest ih =>
      unfold invalidateLink_DocumentWidget_
      simp only [List.foldl_cons]
      split_ifs with hl
      · exact ih _ (mem_insert_PtrSet_of_mem run.ptr h)
      · exact ih _ h

theorem mem_invalidateLink_of_match (links : List GmRunRef) (acc : List ℕ)
    (linkId : ℕ) {run : GmRunRef} (hmem : run ∈ links) (hid : run.linkId = linkId) :
    run.ptr ∈ invalidateLink_DocumentWidget_ links acc linkId := by
  induction links generalizing acc with
  | nil => cases hmem
  | cons head rest ih =>
      unfold invalidateLink_DocumentWidget_
      simp only [List.foldl_cons]
      rcases List.mem_cons.mp hmem with heq | htail
      · subst heq
        rw [if_pos hid]
        exact mem_invalidateLink_of_mem rest _ linkId (mem_insert_PtrSet_self acc run.ptr)
      · split_ifs with hl
        · exact ih _ htail
        · exact ih _ htail

theorem invalidateLink_no_new (links : List GmRunRef) (acc : List ℕ) (linkId : ℕ)
    (h : ∀ run ∈ links, run.linkId = linkId → run.ptr ∈ acc) :
    invalidateLink_DocumentWidget_ links acc linkId = acc := by
  induction links generalizing acc with
  | nil => rfl
  | cons head rest ih =>
      unfold invalidateLink_DocumentWidget_
      simp only [List.foldl_cons]
      split_ifs with hl
      · rw [show insert_PtrSet acc head.ptr = acc from
          if_pos (h head (List.mem_cons_self _ _) hl)]
        exact ih acc fun run hr hid => h run (List.mem_cons_of_mem _ hr) hid
      · exact ih acc fun run hr hid => h run (List.mem_cons_of_mem _ hr) hid

theorem nodup_insert_PtrSet {s : List ℕ} (x : ℕ) (h : s.Nodup) :
    (insert_PtrSet s x).Nodup := by
  unfold insert_PtrSet
  split_ifs with h1
  · exact h
  · refine List.Nodup.append h (List.nodup_singleton x) ?_
    intro a ha hb
    rw [List.mem_singleton] at hb
    subst hb
    exact h1 ha

theorem nodup_invalidateLink (links : List GmRunRef) (acc : List ℕ) (linkId : ℕ)
    (h : acc.Nodup) : (invalidateLink_DocumentWidget_ links acc linkId).Nodup := by
  induction links generalizing acc with
  | nil => exact h
  | cons head rest ih =>
      unfold invalidateLink_DocumentWidget_
      simp only [List.foldl_cons]
      split_ifs with hl
      · exact ih _ (nodup_insert_PtrSet head.ptr h)
      · exact ih _ h

/-- C9: invalidating the same link twice before a cache sync produces exactly
the same set of runs to redraw as invalidating it once; the set insert is
idempotent, and the invalidation set stays duplicate-free. -/
theorem invalidateLink_idempotent (links : List GmRunRef) (invalid : List ℕ)
    (linkId : ℕ) (s : List ℕ) (x : ℕ) :
    invalidateLink_DocumentWidget_ links
        (invalidateLink_DocumentWidget_ links invalid linkId) linkId =
      invalidateLink_DocumentWidget_ links invalid linkId ∧
    insert_PtrSet (insert_PtrSet s x) x = insert_PtrSet s x ∧
    (invalid.Nodup → (invalidateLink_DocumentWidget_ links invalid linkId).Nodup) := by
  refine ⟨?_, insert_PtrSet_idem s x, nodup_invalidateLink links invalid linkId⟩
  exact invalidateLink_no_new links _ linkId
    (fun run hr hid => mem_invalidateLink_of_match links invalid linkId hr hid)

/-! ## Streamed document updates (src/unnamed/part_000,
`updateDocument_DocumentWidget_`)

The routine returns at once when `d->state == ready_RequestState`, skips
input-category responses, and for a success status runs the MIME loop over
the `;`-separated segments of the lowercased `response->meta` (splitting and
per-segment trimming are the_Foundation's `nextSplit`/`trim_Rangecc`,
upstream of the embedded loop, so segments arrive already split and
trimmed).  The synthesized one-link document text `"=> url title\n"` is
modelled as the abstract source text `mediaLinkText`, the body as
`bodyText`, and the `decode_Block` transcoding pass as a flag on the source
handed to the Document.  The quote-stripping inside the charset parameter
compares the byte one past the parameter range (`*charset.end`), which for a
`;`-split segment is never a quote, so it never strips and is not
modelled. -/

inductive RequestState where
  | blank
  | fetching
  | receivedPartialResponse
  | ready
deriving DecidableEq

inductive GmDocumentFormat where
  | undefined
  | gemini
  | plainText
deriving DecidableEq

/-- What `str` holds when `setSource_DocumentWidget_` receives it. -/
inductive SourceText where
  | bodyText
  | mediaLinkText
  | emptyText
  | errorText
deriving DecidableEq

/-- One `setData_Media` call: the declared type segment and whether the data
was flagged partial (`!isRequestFinished`). -/
structure MediaCall where
  mime : List Char
  partialData : Bool
deriving DecidableEq

/-- The local state of the MIME loop in `updateDocument_DocumentWidget_`:
`docFormat`, `str`, `setSource`, `charset`, plus the widget's `sourceMime`
which the loop overwrites, and the `setData_Media` calls it makes. -/
structure MimeLoopState where
  docFormat : GmDocumentFormat
  str : SourceText
  setSource : Bool
  charset : List Char
  sourceMime : List Char
  mediaCalls : List MediaCall
deriving DecidableEq

def textGeminiMime : List Char := ['t', 'e', 'x', 't', '/', 'g', 'e', 'm', 'i', 'n', 'i']

def textSlashPre : List Char := ['t', 'e', 'x', 't', '/']

def applicationJsonMime : List Char :=
  ['a', 'p', 'p', 'l', 'i', 'c', 'a', 't', 'i', 'o', 'n', '/', 'j', 's', 'o', 'n']

def imageSlashPre : List Char := ['i', 'm', 'a', 'g', 'e', '/']

def audioSlashPre : List Char := ['a', 'u', 'd', 'i', 'o', '/']

def charsetPre : List Char := ['c', 'h', 'a', 'r', 's', 'e', 't', '=']

def utf8Charset : List Char := ['u', 't', 'f', '-', '8']

/-- the_Foundation `equalCase_Rangecc` on char lists (ASCII lower-casing). -/
def lowerChar (c : Char) : Char :=
  if 'A' ≤ c ∧ c ≤ 'Z' then Char.ofNat (c.toNat + 32) else c

def equalCaseChars (a b : List Char) : Bool :=
  a.map lowerChar == b.map lowerChar

/-- the_Foundation `trim_Rangecc`: strip leading and trailing whitespace
(C `isspace`: space, tab, newline, vertical tab, form feed, carriage
return). -/
def isSpaceChar (c : Char) : Bool :=
  c == ' ' || c == '\t' || c == '\n' || c == '\x0b' || c == '\x0c' || c == '\r'

def trim_Rangecc (s : List Char) : List Char :=
  ((s.dropWhile isSpaceChar).reverse.dropWhile isSpaceChar).reverse

/-- One iteration of the MIME loop: "text/gemini" picks the gemini format;
any other "text/..." or "application/json" the plain-text format;
"image/..." / "audio/..." pick gemini, synthesize the one-link document
and hand the body to the media store — `setData_Media` receives `mimeStr`,
the *full* lowercased meta, not the matched segment — image only when the
request is finished, audio also mid-stream, where only the media data is
updated and the source is left alone; "charset=..." records the declared
charset value, trimmed (`trim_Rangecc`). -/
def processSegment (isInitialUpdate isRequestFinished : Bool) (mimeStr : List Char)
    (st : MimeLoopState) (param : List Char) : MimeLoopState :=
  if param = textGeminiMime then
    { st with docFormat := .gemini, sourceMime := param }
  else if textSlashPre <+: param ∨ param = applicationJsonMime then
    { st with docFormat := .plainText, sourceMime := param }
  else if imageSlashPre <+: param ∨ audioSlashPre <+: param then
    if (audioSlashPre <+: param ∧ isInitialUpdate = true) ∨
        (¬ (audioSlashPre <+: param) ∧ isRequestFinished = true) then
      { st with docFormat := .gemini, sourceMime := param, str := .mediaLinkText,
                mediaCalls := st.mediaCalls ++ [⟨mimeStr, !isRequestFinished⟩] }
    else if (audioSlashPre <+: param) ∧ isInitialUpdate = false then
      { st with docFormat := .gemini, sourceMime := param,
                mediaCalls := st.mediaCalls ++ [⟨mimeStr, !isRequestFinished⟩],
                setSource := false }
    else
      { st with docFormat := .gemini, sourceMime := param, str := .emptyText }
  else if charsetPre <+: param then
    { st with charset := trim_Rangecc (param.drop 8) }
  else st

/-- The loop starts with an undefined format, the body as `str`, `setSource`
true, charset "utf-8", and `d->sourceMime` set to the whole lowercased
meta. -/
def initMimeLoopState (metaFull : List Char) : MimeLoopState :=
  { docFormat := .undefined, str := .bodyText, setSource := true,
    charset := utf8Charset, sourceMime := metaFull, mediaCalls := [] }

/-- The response fields `updateDocument_DocumentWidget_` reads: the status
category (input / success), the lowercased meta (full text and split
segments) and the receive time. -/
structure GmResponse where
  isInputCategory : Bool
  isSuccess : Bool
  metaSegments : List (List Char)
  metaFull : List Char
  whenTime : ℕ
deriving DecidableEq

/-- The document-widget state `updateDocument_DocumentWidget_` touches. -/
structure DocState where
  state : RequestState
  format : GmDocumentFormat
  sourceMime : List Char
  sourceTime : ℕ
  source : Option (SourceText × Bool)
  mediaCalls : List MediaCall
deriving DecidableEq

/-- `showErrorPage_DocumentWidget_`, condensed to the fields modelled here:
the error-page text becomes the document source, the format is gemini, and
the state moves to `ready`. -/
def showErrorPage_DocumentWidget_ (d : DocState) : DocState :=
  { d with format := .gemini, source := some (.errorText, false), state := .ready }

/-- `updateDocument_DocumentWidget_`: no-op when `ready`; non-input statuses
clear `sourceMime`, stamp `sourceTime`, and a success status runs the MIME
loop — an undefined format shows the unsupported-media error page without
setting the source, otherwise the format is applied and, unless the loop
cleared `setSource` (audio mid-stream), the source text is handed over,
transcoded when the declared charset is not utf-8. -/
def updateDocument_DocumentWidget_ (d : DocState) (resp : GmResponse)
    (isInitialUpdate isRequestFinished : Bool) : DocState :=
  if d.state = .ready then d
  else if resp.isInputCategory then d
  else
    let d1 : DocState := { d with sourceMime := [], sourceTime := resp.whenTime }
    if resp.isSuccess then
      let st := resp.metaSegments.foldl
        (processSegment isInitialUpdate isRequestFinished resp.metaFull)
        (initMimeLoopState resp.metaFull)
      if st.docFormat = .undefined then
        showErrorPage_DocumentWidget_
          { d1 with sourceMime := st.sourceMime,
                    mediaCalls := d1.mediaCalls ++ st.mediaCalls }
      else
        let d2 : DocState :=
          { d1 with format := st.docFormat, sourceMime := st.sourceMime,
                    mediaCalls := d1.mediaCalls ++ st.mediaCalls }
        if st.setSource then
          { d2 with source := some (st.str, !(equalCaseChars st.charset utf8Charset)) }
        else d2
    else
      { d1 with source := some (.bodyText, false) }

/-- C10: once the request lifecycle state is ready, processing any further
streamed response update is a no-op — the whole document-widget state,
including the source, the source MIME string and the source timestamp, is
left unchanged. -/
theorem updateDocument_noop_when_ready (d : DocState) (resp : GmResponse)
    (isInitialUpdate isRequestFinished : Bool) (h : d.state = .ready) :
    updateDocument_DocumentWidget_ d resp isInitialUpdate isRequestFinished = d := by
  unfold updateDocument_DocumentWidget_
  rw [if_pos h]

/-- A concrete ready-state widget and a concrete streamed response for the
C10 witness. -/
def readyDocExample : DocState :=
  { state := .ready, format := .gemini, sourceMime := textGeminiMime,
    sourceTime := 7, source := some (.bodyText, false), mediaCalls := [] }

def streamedRespExample : GmResponse :=
  { isInputCategory := false, isSuccess := true,
    metaSegments := [textGeminiMime], metaFull := textGeminiMime, whenTime := 42 }

/-- Witness for C10 at a concrete input. -/
theorem updateDocument_noop_when_ready_witness :
    updateDocument_DocumentWidget_ readyDocExample streamedRespExample true true =
      readyDocExample :=
  updateDocument_noop_when_ready readyDocExample streamedRespExample true true rfl

/-! Helper facts about the MIME patterns: two lists with different head
characters exclude each other as prefixes. -/

theorem prefix_head_clash {α : Type} {a b : α} {as bs t : List α}
    (ha : (a :: as) <+: t) (hab : a ≠ b) : ¬ ((b :: bs) <+: t) := by
  intro hb
  obtain ⟨s1, hs1⟩ := ha
  obtain ⟨s2, hs2⟩ := hb
  rw [List.cons_append] at hs1 hs2
  have h12 := hs1.trans hs2.symm
  injection h12 with h1 _
  exact hab h1

theorem processSegment_charsetSeg {i f : Bool} {m : List Char} {st : MimeLoopState}
    (cs : List Char) :
    processSegment i f m st (charsetPre ++ cs) =
      { st with charset := trim_Rangecc cs } := by
  have hpre : charsetPre <+: charsetPre ++ cs := List.prefix_append _ _
  have h1 : charsetPre ++ cs ≠ textGeminiMime := by
    intro h
    have h2 := congrArg List.head? h
    rw [show List.head? (charsetPre ++ cs) = some 'c' from rfl,
        show List.head? textGeminiMime = some 't' from rfl] at h2
    injection h2 with h3
    exact absurd h3 (by decide)
  have h2 : ¬ (textSlashPre <+: charsetPre ++ cs ∨
      charsetPre ++ cs = applicationJsonMime) := by
    rintro (h | h)
    · exact prefix_head_clash hpre (by decide) h
    · rw [h] at hpre
      exact absurd hpre (by decide)
  have h3 : ¬ (imageSlashPre <+: charsetPre ++ cs ∨
      audioSlashPre <+: charsetPre ++ cs) := by
    rintro (h | h)
    · exact prefix_head_clash hpre (by decide) h
    · exact prefix_head_clash hpre (by decide) h
  unfold processSegment
  rw [if_neg h1, if_neg h2, if_neg h3, if_pos hpre,
      show (charsetPre ++ cs).drop 8 = cs from by
        rw [show (8 : ℕ) = charsetPre.length from rfl, List.drop_left]]

theorem processSegment_textGemini {i f : Bool} {m : List Char} {st : MimeLoopState} :
    processSegment i f m st textGeminiMime =
      { st with docFormat := .gemini, sourceMime := textGeminiMime } := by
  unfold processSegment
  rw [if_pos rfl]

theorem processSegment_textOther {i f : Bool} {m : List Char} {st : MimeLoopState}
    {t : List Char}
    (h1 : t ≠ textGeminiMime) (h2 : textSlashPre <+: t ∨ t = applicationJsonMime) :
    processSegment i f m st t = { st with docFormat := .plainText, sourceMime := t } := by
  unfold processSegment
  rw [if_neg h1, if_pos h2]

theorem image_not_text {t : List Char} (h : imageSlashPre <+: t) :
    t ≠ textGeminiMime ∧
      ¬ (textSlashPre <+: t ∨ t = applicationJsonMime) := by
  constructor
  · intro he
    rw [he] at h
    exact absurd h (by decide)
  · rintro (hp | he)
    · exact prefix_head_clash h (by decide) hp
    · rw [he] at h
      exact absurd h (by decide)

theorem audio_not_text {t : List Char} (h : audioSlashPre <+: t) :
    t ≠ textGeminiMime ∧
      ¬ (textSlashPre <+: t ∨ t = applicationJsonMime) := by
  constructor
  · intro he
    rw [he] at h
    exact absurd h (by decide)
  · rintro (hp | he)
    · exact prefix_head_clash h (by decide) hp
    · rw [he] at h
      exact absurd h (by decide)

theorem processSegment_image_finished {i : Bool} {m : List Char} {st : MimeLoopState}
    {t : List Char} (himg : imageSlashPre <+: t) :
    processSegment i true m st t =
      { st with docFormat := .gemini, sourceMime := t, str := .mediaLinkText,
                mediaCalls := st.mediaCalls ++ [⟨m, false⟩] } := by
  obtain ⟨hne, hnt⟩ := image_not_text himg
  have hna : ¬ (audioSlashPre <+: t) := prefix_head_clash himg (by decide)
  unfold processSegment
  rw [if_neg hne, if_neg hnt, if_pos (Or.inl himg), if_pos (Or.inr ⟨hna, rfl⟩)]
  rfl

theorem processSegment_image_unfinished {i : Bool} {m : List Char} {st : MimeLoopState}
    {t : List Char} (himg : imageSlashPre <+: t) :
    processSegment i false m st t =
      { st with docFormat := .gemini, sourceMime := t, str := .emptyText } := by
  obtain ⟨hne, hnt⟩ := image_not_text himg
  have hna : ¬ (audioSlashPre <+: t) := prefix_head_clash himg (by decide)
  have hc1 : ¬ ((audioSlashPre <+: t ∧ i = true) ∨
      (¬ (audioSlashPre <+: t) ∧ (false : Bool) = true)) := by
    rintro (⟨ha, _⟩ | ⟨_, hf⟩)
    · exact hna ha
    · exact absurd hf (by decide)
  have hc2 : ¬ (audioSlashPre <+: t ∧ i = false) := by
    rintro ⟨ha, _⟩
    exact hna ha
  unfold processSegment
  rw [if_neg hne, if_neg hnt, if_pos (Or.inl himg), if_neg hc1, if_neg hc2]

theorem processSegment_audio_initial {f : Bool} {m : List Char} {st : MimeLoopState}
    {t : List Char} (haud : audioSlashPre <+: t) :
    processSegment true f m st t =
      { st with docFormat := .gemini, sourceMime := t, str := .mediaLinkText,
                mediaCalls := st.mediaCalls ++ [⟨m, !f⟩] } := by
  obtain ⟨hne, hnt⟩ := audio_not_text haud
  unfold processSegment
  rw [if_neg hne, if_neg hnt, if_pos (Or.inr haud), if_pos (Or.inl ⟨haud, rfl⟩)]

theorem processSegment_audio_update {f : Bool} {m : List Char} {st : MimeLoopState}
    {t : List Char} (haud : audioSlashPre <+: t) :
    processSegment false f m st t =
      { st with docFormat := .gemini, sourceMime := t, setSource := false,
                mediaCalls := st.mediaCalls ++ [⟨m, !f⟩] } := by
  obtain ⟨hne, hnt⟩ := audio_not_text haud
  have hc1 : ¬ ((audioSlashPre <+: t ∧ (false : Bool) = true) ∨
      (¬ (audioSlashPre <+: t) ∧ f = true)) := by
    rintro (⟨_, hi⟩ | ⟨hna, _⟩)
    · exact absurd hi (by decide)
    · exact hna haud
  unfold processSegment
  rw [if_neg hne, if_neg hnt, if_pos (Or.inr haud), if_neg hc1, if_pos ⟨haud, rfl⟩]

theorem processSegment_unmatched {i f : Bool} {m : List Char} {st : MimeLoopState}
    {t : List Char}
    (h1 : t ≠ textGeminiMime) (h2 : ¬ (textSlashPre <+: t))
    (h3 : t ≠ applicationJsonMime) (h4 : ¬ (imageSlashPre <+: t))
    (h5 : ¬ (audioSlashPre <+: t)) (h6 : ¬ (charsetPre <+: t)) :
    processSegment i f m st t = st := by
  unfold processSegment
  rw [if_neg h1, if_neg (not_or.mpr ⟨h2, h3⟩), if_neg (not_or.mpr ⟨h4, h5⟩), if_neg h6]

/-- The response carrying a declared type segment `t` and a charset
parameter `charset=cs`, as `updateDocument_DocumentWidget_` sees it after
lower-casing and splitting. -/
def mimeTestResponse (t cs : List Char) : GmResponse :=
  { isInputCategory := false, isSuccess := true,
    metaSegments := [t, charsetPre ++ cs],
    metaFull := t ++ ';' :: (charsetPre ++ cs), whenTime := 0 }

/-- The widget state after processing a success response declaring type `t`
and charset `cs`. -/
def mimeDispatchResult (d : DocState) (t cs : List Char) (i f : Bool) : DocState :=
  updateDocument_DocumentWidget_ d (mimeTestResponse t cs) i f

theorem mimeDispatchResult_eq (d : DocState) (t cs : List Char) (i f : Bool)
    (hd : ¬ d.state = .ready) :
    mimeDispatchResult d t cs i f =
      (fun st : MimeLoopState =>
        if st.docFormat = .undefined then
          showErrorPage_DocumentWidget_
            { d with sourceMime := st.sourceMime, sourceTime := 0,
                     mediaCalls := d.mediaCalls ++ st.mediaCalls }
        else if st.setSource then
          { d with format := st.docFormat, sourceMime := st.sourceMime,
                   sourceTime := 0, mediaCalls := d.mediaCalls ++ st.mediaCalls,
                   source := some (st.str, !(equalCaseChars st.charset utf8Charset)) }
        else
          { d with format := st.docFormat, sourceMime := st.sourceMime,
                   sourceTime := 0, mediaCalls := d.mediaCalls ++ st.mediaCalls })
        (processSegment i f (t ++ ';' :: (charsetPre ++ cs))
          (processSegment i f (t ++ ';' :: (charsetPre ++ cs))
            (initMimeLoopState (t ++ ';' :: (charsetPre ++ cs))) t)
          (charsetPre ++ cs)) := by
  unfold mimeDispatchResult mimeTestResponse updateDocument_DocumentWidget_
  rw [if_neg hd]
  rfl

/-- C2: when a success-category response is processed (state not ready), the
format is chosen from the declared MIME type: a "text/gemini" segment
selects the structured gemini format; any other "text/..." type or
"application/json" the plain-text format; an "image/..." or "audio/..."
type synthesizes a one-link pseudo-document and hands the body bytes to the
media store — for images only once the request is finished, for audio also
on mid-stream updates (which leave the source alone); an unrecognized type
shows the unsupported-media error document without setting the body as
source.  A declared charset parameter other than utf-8 marks the source
handed to the Document as transcoded. -/
theorem updateDocument_mime_dispatch (d : DocState) (t cs : List Char)
    (i f : Bool) (hd : ¬ d.state = RequestState.ready) :
    (t = textGeminiMime →
      (mimeDispatchResult d t cs i f).format = .gemini ∧
      (mimeDispatchResult d t cs i f).source =
        some (.bodyText, !(equalCaseChars (trim_Rangecc cs) utf8Charset))) ∧
    (textSlashPre <+: t → t ≠ textGeminiMime →
      (mimeDispatchResult d t cs i f).format = .plainText ∧
      (mimeDispatchResult d t cs i f).source =
        some (.bodyText, !(equalCaseChars (trim_Rangecc cs) utf8Charset))) ∧
    (t = applicationJsonMime →
      (mimeDispatchResult d t cs i f).format = .plainText ∧
      (mimeDispatchResult d t cs i f).source =
        some (.bodyText, !(equalCaseChars (trim_Rangecc cs) utf8Charset))) ∧
    (imageSlashPre <+: t →
      (mimeDispatchResult d t cs i f).format = .gemini ∧
      (f = true →
        (mimeDispatchResult d t cs i f).source =
          some (.mediaLinkText, !(equalCaseChars (trim_Rangecc cs) utf8Charset)) ∧
        (mimeDispatchResult d t cs i f).mediaCalls =
          d.mediaCalls ++ [⟨t ++ ';' :: (charsetPre ++ cs), false⟩]) ∧
      (f = false →
        (mimeDispatchResult d t cs i f).source =
          some (.emptyText, !(equalCaseChars (trim_Rangecc cs) utf8Charset)) ∧
        (mimeDispatchResult d t cs i f).mediaCalls = d.mediaCalls)) ∧
    (audioSlashPre <+: t →
      (mimeDispatchResult d t cs i f).format = .gemini ∧
      (i = true →
        (mimeDispatchResult d t cs i f).source =
          some (.mediaLinkText, !(equalCaseChars (trim_Rangecc cs) utf8Charset)) ∧
        (mimeDispatchResult d t cs i f).mediaCalls =
          d.mediaCalls ++ [⟨t ++ ';' :: (charsetPre ++ cs), !f⟩]) ∧
      (i = false →
        (mimeDispatchResult d t cs i f).source = d.source ∧
        (mimeDispatchResult d t cs i f).mediaCalls =
          d.mediaCalls ++ [⟨t ++ ';' :: (charsetPre ++ cs), !f⟩])) ∧
    (t ≠ textGeminiMime → ¬ (textSlashPre <+: t) → t ≠ applicationJsonMime →
      ¬ (imageSlashPre <+: t) → ¬ (audioSlashPre <+: t) →
      (mimeDispatchResult d t cs i f).source = some (.errorText, false) ∧
      (mimeDispatchResult d t cs i f).state = .ready) := by
  have heq := mimeDispatchResult_eq d t cs i f hd
  refine ⟨fun h1 => ?_, fun h1 h2 => ?_, fun h1 => ?_, fun h1 => ?_, fun h1 => ?_,
          fun h1 h2 h3 h4 h5 => ?_⟩
  · subst h1
    rw [heq, processSegment_textGemini, processSegment_charsetSeg cs]
    simp [initMimeLoopState]
  · rw [heq, processSegment_textOther h2 (Or.inl h1), processSegment_charsetSeg cs]
    simp [initMimeLoopState]
  · subst h1
    rw [heq, processSegment_textOther (by decide) (Or.inr rfl),
        processSegment_charsetSeg cs]
    simp [initMimeLoopState]
  · cases f with
    | true =>
        rw [heq, processSegment_image_finished h1, processSegment_charsetSeg cs]
        simp [initMimeLoopState]
    | false =>
        rw [heq, processSegment_image_unfinished h1, processSegment_charsetSeg cs]
        simp [initMimeLoopState]
  · cases i with
    | true =>
        rw [heq, processSegment_audio_initial h1, processSegment_charsetSeg cs]
        simp [initMimeLoopState]
    | false =>
        rw [heq, processSegment_audio_update h1, processSegment_charsetSeg cs]
        simp [initMimeLoopState]
  · by_cases hc : charsetPre <+: t
    · obtain ⟨cs2, rfl⟩ := hc
      rw [heq, processSegment_charsetSeg cs2, processSegment_charsetSeg cs]
      simp [initMimeLoopState, showErrorPage_DocumentWidget_]
    · rw [heq, processSegment_unmatched h1 h2 h3 h4 h5 hc, processSegment_charsetSeg cs]
      simp [initMimeLoopState, showErrorPage_DocumentWidget_]

/-- A concrete mid-fetch widget state for the C2 witness. -/
def partialDocExample : DocState :=
  { state := .receivedPartialResponse, format := .undefined, sourceMime := [],
    sourceTime := 0, source := none, mediaCalls := [] }

/-- Witness for C2 at a concrete input: a "text/gemini; charset=utf-8"
response mid-fetch selects the gemini format and hands the body over
untranscoded. -/
theorem updateDocument_mime_dispatch_witness :
    (mimeDispatchResult partialDocExample textGeminiMime utf8Charset true true).format =
        .gemini ∧
    (mimeDispatchResult partialDocExample textGeminiMime utf8Charset true true).source =
        some (.bodyText, !(equalCaseChars (trim_Rangecc utf8Charset) utf8Charset)) :=
  (updateDocument_mime_dispatch partialDocExample textGeminiMime utf8Charset true true
    (by decide)).1 rfl

end Lagrange
